import Mathlib

/-!
Verification of the spotunes extraction script (src/spotify_data_extract.py).

The script is a one-shot batch job: it lists the current user's playlists
(one page of size 30), pages through each playlist's tracks, enriches each
track's first artist with genre metadata, and writes everything into five
SQLite tables with INSERT OR IGNORE, committing once per playlist.

The embedding below mirrors the script:
* `fetchWithRetry` embeds the Python helper `fetch_with_retry` (lines
  103-117): attempts are numbered; each attempt either returns a value,
  raises a SpotifyException carrying an HTTP status and an optional
  Retry-After hint, or raises some other exception.  The Lean function
  additionally records the list of sleep durations performed, which in the
  Python code are the `time.sleep(wait)` calls.
* The five tables are association lists keyed by primary key;
  `insertOrIgnore` embeds INSERT OR IGNORE.
* The pipeline (playlist loop, pagination loop, per-track inserts) is
  embedded as a trace generator producing the list of insert operations a
  run performs, which depends only on the API responses (the script never
  reads the database back), followed by `applyOps`.
-/

set_option autoImplicit false

namespace Spotunes

/-- Result of one invocation of the wrapped operation `func` inside
`fetch_with_retry`: a value, a `SpotifyException` with `http_status` and the
optional integer `Retry-After` header, or any other exception (opaque code). -/
inductive Outcome (α : Type) where
  | ok (v : α)
  | spotifyErr (status : Nat) (retryAfter : Option Nat)
  | otherErr (code : Nat)
deriving DecidableEq

/-- Observable result of `fetch_with_retry`, instrumented with the list of
sleep durations (the arguments of the `time.sleep(wait)` calls, in order). -/
inductive RetryResult (α : Type) where
  | success (v : α) (sleeps : List Nat)
  | exhausted (sleeps : List Nat)
  | raisedSpotify (status : Nat) (retryAfter : Option Nat) (sleeps : List Nat)
  | raisedOther (code : Nat) (sleeps : List Nat)
deriving DecidableEq

/-- Prefix an additional sleep (performed before the rest of the run). -/
def RetryResult.addSleep {α : Type} (w : Nat) : RetryResult α → RetryResult α
  | .success v sl => .success v (w :: sl)
  | .exhausted sl => .exhausted (w :: sl)
  | .raisedSpotify s ra sl => .raisedSpotify s ra (w :: sl)
  | .raisedOther c sl => .raisedOther c (w :: sl)

/-- Wait duration chosen by the except-branch for a retryable failure:
`int(e.headers.get("Retry-After", delay))`. -/
def waitOf {α : Type} (o : Outcome α) (delay : Nat) : Nat :=
  match o with
  | .spotifyErr _ ra => ra.getD delay
  | _ => delay

/-- Loop body of `fetch_with_retry`: `k` is the index of the next attempt
(the value of `retries`), `fuel` is `max_retries - retries`, i.e. how many
more times the `while retries < max_retries` guard succeeds. -/
def fetchAux {α : Type} (f : Nat → Outcome α) (delay : Nat) :
    Nat → Nat → RetryResult α
  | _, 0 => .exhausted []
  | k, fuel + 1 =>
    match f k with
    | .ok v => .success v []
    | .spotifyErr s ra =>
      if s = 429 ∨ s = 403 then
        (fetchAux f delay (k + 1) fuel).addSleep (ra.getD delay)
      else
        .raisedSpotify s ra []
    | .otherErr c => .raisedOther c []

/-- Embedding of `fetch_with_retry(func, *args, max_retries=5, delay=1)`.
`f k` is the outcome of the `k`-th invocation of `func`.  `max_retries` is
an integer (Python permits zero or negative values); the while loop runs
`max (max_retries, 0)` times. -/
def fetchWithRetry {α : Type} (f : Nat → Outcome α) (maxRetries : Int)
    (delay : Nat) : RetryResult α :=
  fetchAux f delay 0 maxRetries.toNat

/-- An outcome that takes the retry branch (HTTP 429 or 403). -/
def retryable {α : Type} (o : Outcome α) : Prop :=
  match o with
  | .spotifyErr s _ => s = 429 ∨ s = 403
  | _ => False

instance {α : Type} (o : Outcome α) : Decidable (retryable o) := by
  unfold retryable
  cases o <;> infer_instance

lemma fetchAux_all_retryable {α : Type} (f : Nat → Outcome α) (delay : Nat) :
    ∀ (fuel k : Nat), (∀ i, i < fuel → retryable (f (k + i))) →
      fetchAux f delay k fuel =
        .exhausted ((List.range fuel).map fun i => waitOf (f (k + i)) delay) := by
  intro fuel
  induction fuel with
  | zero => intro k _; simp [fetchAux]
  | succ n ih =>
    intro k h
    have h0 : retryable (f k) := by
      have := h 0 (Nat.succ_pos n)
      simpa using this
    rcases hf : f k with v | ⟨s, ra⟩ | c
    · rw [hf] at h0; simp [retryable] at h0
    · have hs : s = 429 ∨ s = 403 := by rw [hf] at h0; exact h0
      have hrec : fetchAux f delay (k + 1) n =
          .exhausted ((List.range n).map fun i => waitOf (f (k + 1 + i)) delay) := by
        apply ih
        intro i hi
        have := h (i + 1) (Nat.succ_lt_succ hi)
        have harith : k + (i + 1) = k + 1 + i := by omega
        rwa [harith] at this
      have hrange : (List.range (n + 1)).map (fun i => waitOf (f (k + i)) delay) =
          waitOf (f k) delay ::
            (List.range n).map fun i => waitOf (f (k + 1 + i)) delay := by
        rw [List.range_succ_eq_map]
        simp [List.map_map, Function.comp]
        intro a _
        have : k + (a + 1) = k + 1 + a := by omega
        rw [this]
      simp only [fetchAux, hf, if_pos hs, hrec, RetryResult.addSleep, hrange]
      simp [waitOf, hf]
    · rw [hf] at h0; simp [retryable] at h0

/-- Claim C2: if every one of the first `max (maxRetries, 0)` attempts fails
with HTTP 429 or 403, the helper sleeps once per failed attempt, for exactly
the Retry-After hint when present (hence at least the hinted duration) and
for the fallback `delay` otherwise, makes exactly `max (maxRetries, 0)`
attempts, and then gives up with the no-result sentinel (`exhausted`, the
embedding of returning `None`) instead of raising. -/
theorem retry_sleeps_hint_then_returns_none {α : Type} (f : Nat → Outcome α)
    (maxRetries : Int) (delay : Nat)
    (h : ∀ i, i < maxRetries.toNat → retryable (f i)) :
    fetchWithRetry f maxRetries delay =
      .exhausted ((List.range maxRetries.toNat).map fun i => waitOf (f i) delay) ∧
    ((List.range maxRetries.toNat).map fun i => waitOf (f i) delay).length =
      maxRetries.toNat ∧
    (∀ i s n, i < maxRetries.toNat → f i = .spotifyErr s (some n) →
      n ≤ waitOf (f i) delay) ∧
    (∀ i s, i < maxRetries.toNat → f i = .spotifyErr s none →
      waitOf (f i) delay = delay) := by
  refine ⟨?_, by simp, ?_, ?_⟩
  · have := fetchAux_all_retryable f delay maxRetries.toNat 0 (by simpa using h)
    simpa [fetchWithRetry] using this
  · intro i s n _ hf
    simp [waitOf, hf]
  · intro i s _ hf
    simp [waitOf, hf]

/-- Witness for C2: three attempts all rate-limited, hints 7, none, 9, with
fallback delay 1 and maxRetries 3: the helper sleeps [7, 1, 9] and returns
the sentinel. -/
theorem retry_sleeps_hint_then_returns_none_witness :
    fetchWithRetry
        (fun i => if i = 0 then Outcome.spotifyErr 429 (some 7)
                  else if i = 1 then Outcome.spotifyErr 403 none
                  else Outcome.spotifyErr 429 (some 9) : Nat → Outcome Nat)
        3 1 = .exhausted [7, 1, 9] := by
  have h := retry_sleeps_hint_then_returns_none
      (fun i => if i = 0 then Outcome.spotifyErr 429 (some 7)
                else if i = 1 then Outcome.spotifyErr 403 none
                else Outcome.spotifyErr 429 (some 9) : Nat → Outcome Nat)
      3 1 (by decide)
  rw [h.1]
  rfl

lemma fetchAux_raises_nonretryable {α : Type} (f : Nat → Outcome α)
    (delay : Nat) :
    ∀ (fuel k j : Nat) (s : Nat) (ra : Option Nat), j < fuel →
      (∀ i, i < j → retryable (f (k + i))) →
      f (k + j) = .spotifyErr s ra → ¬ (s = 429 ∨ s = 403) →
      fetchAux f delay k fuel =
        .raisedSpotify s ra ((List.range j).map fun i => waitOf (f (k + i)) delay) := by
  intro fuel
  induction fuel with
  | zero => intro k j s ra hj; omega
  | succ n ih =>
    intro k j s ra hj hpre hf hs
    cases j with
    | zero =>
      have hf0 : f k = .spotifyErr s ra := by simpa using hf
      simp [fetchAux, hf0, hs]
    | succ m =>
      have h0 : retryable (f k) := by
        have := hpre 0 (Nat.succ_pos m)
        simpa using this
      rcases hk : f k with v | ⟨s0, ra0⟩ | c
      · rw [hk] at h0; simp [retryable] at h0
      · have hs0 : s0 = 429 ∨ s0 = 403 := by rw [hk] at h0; exact h0
        have hrec : fetchAux f delay (k + 1) n =
            .raisedSpotify s ra
              ((List.range m).map fun i => waitOf (f (k + 1 + i)) delay) := by
          apply ih (k + 1) m s ra (by omega)
          · intro i hi
            have := hpre (i + 1) (Nat.succ_lt_succ hi)
            have harith : k + (i + 1) = k + 1 + i := by omega
            rwa [harith] at this
          · have harith : k + (m + 1) = k + 1 + m := by omega
            rwa [harith] at hf
          · exact hs
        have hrange : (List.range (m + 1)).map (fun i => waitOf (f (k + i)) delay) =
            waitOf (f k) delay ::
              (List.range m).map fun i => waitOf (f (k + 1 + i)) delay := by
          rw [List.range_succ_eq_map]
          simp [List.map_map, Function.comp]
          intro a _
          have : k + (a + 1) = k + 1 + a := by omega
          rw [this]
        simp only [fetchAux, hk, if_pos hs0, hrec, RetryResult.addSleep, hrange]
        simp [waitOf, hk]
      · rw [hk] at h0; simp [retryable] at h0

/-- Claim C3: if attempt `j` (preceded only by retryable failures) fails
with a SpotifyException whose status is neither 429 nor 403, the helper
re-raises that exception at once: no sleep is added for it (the sleep list
is exactly the `j` sleeps of the earlier retryable attempts) and no further
attempt occurs (the result agrees for any operation agreeing on attempts
`0..j`).  With `j = 0` this is an immediate re-raise with no sleep at all. -/
theorem retry_nonretryable_raises_immediately {α : Type} (f : Nat → Outcome α)
    (maxRetries : Int) (delay : Nat) (j s : Nat) (ra : Option Nat)
    (hj : j < maxRetries.toNat)
    (hpre : ∀ i, i < j → retryable (f i))
    (hf : f j = .spotifyErr s ra)
    (hs : ¬ (s = 429 ∨ s = 403)) :
    fetchWithRetry f maxRetries delay =
      .raisedSpotify s ra ((List.range j).map fun i => waitOf (f i) delay) ∧
    (∀ g : Nat → Outcome α, (∀ i, i ≤ j → g i = f i) →
      fetchWithRetry g maxRetries delay = fetchWithRetry f maxRetries delay) := by
  have main : fetchWithRetry f maxRetries delay =
      .raisedSpotify s ra ((List.range j).map fun i => waitOf (f i) delay) := by
    have := fetchAux_raises_nonretryable f delay maxRetries.toNat 0 j s ra hj
      (by simpa using hpre) (by simpa using hf) hs
    simpa [fetchWithRetry] using this
  refine ⟨main, ?_⟩
  intro g hg
  have hgj : g j = .spotifyErr s ra := by rw [hg j (le_refl j)]; exact hf
  have hgpre : ∀ i, i < j → retryable (g i) := by
    intro i hi
    rw [hg i (le_of_lt hi)]
    exact hpre i hi
  have gmain : fetchWithRetry g maxRetries delay =
      .raisedSpotify s ra ((List.range j).map fun i => waitOf (g i) delay) := by
    have := fetchAux_raises_nonretryable g delay maxRetries.toNat 0 j s ra hj
      (by simpa using hgpre) (by simpa using hgj) hs
    simpa [fetchWithRetry] using this
  rw [gmain, main]
  have : (List.range j).map (fun i => waitOf (g i) delay) =
      (List.range j).map fun i => waitOf (f i) delay := by
    apply List.map_congr_left
    intro i hi
    rw [hg i (le_of_lt (List.mem_range.mp hi))]
  rw [this]

/-- Witness for C3: the first attempt fails with HTTP 500; the helper
raises it with no sleeps (maxRetries 5, delay 1). -/
theorem retry_nonretryable_raises_immediately_witness :
    fetchWithRetry (fun _ => Outcome.spotifyErr 500 none : Nat → Outcome Nat)
        5 1 = .raisedSpotify 500 none [] ∧
    fetchWithRetry (fun _ => Outcome.spotifyErr 500 (some 3) : Nat → Outcome Nat)
        5 1 = fetchWithRetry (fun i => if i = 0 then Outcome.spotifyErr 500 (some 3)
          else Outcome.ok 0 : Nat → Outcome Nat) 5 1 := by
  constructor
  · have h := retry_nonretryable_raises_immediately
        (fun _ => Outcome.spotifyErr 500 none : Nat → Outcome Nat)
        5 1 0 500 none (by decide) (by intro i hi; omega) rfl (by decide)
    simpa using h.1
  · have h := retry_nonretryable_raises_immediately
        (fun i => if i = 0 then Outcome.spotifyErr 500 (some 3)
          else Outcome.ok 0 : Nat → Outcome Nat)
        5 1 0 500 (some 3) (by decide) (by intro i hi; omega) rfl (by decide)
    exact (h.2 (fun _ => Outcome.spotifyErr 500 (some 3)) (by
      intro i hi
      have : i = 0 := Nat.le_zero.mp hi
      simp [this])).symm

/-- Claim C9: with a zero or negative maximum attempt count the while guard
`retries < max_retries` fails immediately, so the helper returns the
no-result sentinel for every operation — hence without invoking the
operation and without sleeping (the sleep list is empty). -/
theorem retry_nonpos_max_returns_none {α : Type} (maxRetries : Int)
    (delay : Nat) (hm : maxRetries ≤ 0) :
    ∀ f : Nat → Outcome α, fetchWithRetry f maxRetries delay = .exhausted [] := by
  intro f
  have h0 : maxRetries.toNat = 0 := Int.toNat_of_nonpos hm
  simp [fetchWithRetry, h0, fetchAux]

/-- Witness for C9: maxRetries = -2 with an operation that would succeed
immediately still yields the sentinel with no sleeps. -/
theorem retry_nonpos_max_returns_none_witness :
    fetchWithRetry (fun _ => Outcome.ok 42 : Nat → Outcome Nat) (-2) 1 =
      .exhausted [] :=
  retry_nonpos_max_returns_none (-2) 1 (by decide) (fun _ => Outcome.ok 42)

/-! API data as seen by the script.  All identifiers are the provider's
opaque strings. -/

/-- Entry of a track's `artists` array (id and name are all the script
reads from it). -/
structure ArtistRef where
  id : String
  name : String
deriving DecidableEq

/-- The `album` object of a track: id, name, release_date. -/
structure AlbumInfo where
  id : String
  name : String
  release_date : String
deriving DecidableEq

/-- A track object as read by the per-item loop. -/
structure Track where
  id : String
  name : String
  album : AlbumInfo
  popularity : Int
  duration_ms : Int
  explicit : Bool
  artists : List ArtistRef
deriving DecidableEq

/-- An element of a track page's `items` array; `track` is `none` when the
item's track reference is null or missing (`item.get("track")` falsy). -/
structure TrackItem where
  track : Option Track
deriving DecidableEq

/-- A page of playlist items: its `items` array and whether a `next` page
is indicated. -/
structure Page where
  items : List TrackItem
  next : Bool
deriving DecidableEq

/-- A playlist object: id, name, owner display name, and the reported
total track count (`playlist["tracks"]["total"]`). -/
structure Playlist where
  id : String
  name : String
  owner : String
  total : Int
deriving DecidableEq

/-- Response of `current_user_playlists`: the first page's items together
with the listing's total count and next-page indicator, which the script
never reads. -/
structure PlaylistsPage where
  items : List Playlist
  total : Int
  next : Bool
deriving DecidableEq

/-- Response of `sp.artist`: the script only reads `genres`. -/
structure ArtistInfo where
  genres : List String
deriving DecidableEq

/-- The remote API as an oracle of post-retry responses: each field gives
the value the corresponding `fetch_with_retry(...)` call produces, `none`
being the no-result sentinel (retry exhaustion).
`currentUserPlaylists` is indexed by the `limit` argument;
`playlistTracksFirst` by playlist id and `limit`; `nextResponses pid` is
the stream of responses to the successive `sp.next` calls for that
playlist. -/
structure Env where
  currentUserPlaylists : Nat → Option PlaylistsPage
  playlistTracksFirst : String → Nat → Option Page
  nextResponses : String → List (Option Page)
  artistInfo : String → Option ArtistInfo

/-! The five tables.  Each table is an association list from primary key to
the non-key columns, in insertion order. -/

/-- Non-key columns of `artists` (PK `artist_id`). -/
structure ArtistRow where
  name : String
  genres : String
deriving DecidableEq

/-- Non-key columns of `albums` (PK `album_id`). -/
structure AlbumRow where
  name : String
  release_date : String
  artist_id : String
deriving DecidableEq

/-- Non-key columns of `tracks` (PK `track_id`). -/
structure TrackRow where
  name : String
  album_id : String
  popularity : Int
  duration_ms : Int
  explicit : Bool
deriving DecidableEq

/-- Non-key columns of `playlists` (PK `playlist_id`). -/
structure PlaylistRow where
  name : String
  owner : String
  num_tracks : Int
deriving DecidableEq

/-- The database: five tables.  `playlist_tracks` has the composite key
(playlist_id, track_id) and no further columns. -/
structure DB where
  artists : List (String × ArtistRow)
  albums : List (String × AlbumRow)
  tracks : List (String × TrackRow)
  playlists : List (String × PlaylistRow)
  playlist_tracks : List ((String × String) × Unit)
deriving DecidableEq

/-- The freshly created empty schema. -/
def emptyDB : DB := ⟨[], [], [], [], []⟩

/-- Primary keys present in a table. -/
def tableKeys {κ ρ : Type} (t : List (κ × ρ)) : List κ := t.map Prod.fst

/-- Embedding of INSERT OR IGNORE: a row whose primary key is already
present is a no-op; otherwise the row is appended. -/
def insertOrIgnore {κ ρ : Type} [DecidableEq κ] (k : κ) (v : ρ)
    (t : List (κ × ρ)) : List (κ × ρ) :=
  if k ∈ tableKeys t then t else t ++ [(k, v)]

/-- One INSERT OR IGNORE statement issued by the script, with its target
table and values. -/
inductive Op where
  | artist (artist_id name genres : String)
  | album (album_id name release_date artist_id : String)
  | track (track_id name album_id : String) (popularity duration_ms : Int)
      (explicit : Bool)
  | playlist (playlist_id name owner : String) (num_tracks : Int)
  | playlistTrack (playlist_id track_id : String)
deriving DecidableEq

/-- Execute one statement against the database. -/
def applyOp (db : DB) : Op → DB
  | .artist i n g => { db with artists := insertOrIgnore i ⟨n, g⟩ db.artists }
  | .album i n r a => { db with albums := insertOrIgnore i ⟨n, r, a⟩ db.albums }
  | .track i n al p d e =>
      { db with tracks := insertOrIgnore i ⟨n, al, p, d, e⟩ db.tracks }
  | .playlist i n o t =>
      { db with playlists := insertOrIgnore i ⟨n, o, t⟩ db.playlists }
  | .playlistTrack p t =>
      { db with playlist_tracks := insertOrIgnore (p, t) () db.playlist_tracks }

/-- Execute a statement sequence in order. -/
def applyOps (db : DB) (ops : List Op) : DB := ops.foldl applyOp db

/-- Body of the pagination while loop (lines 145-149): `p` is the current
`results` value, the list is the stream of responses to the pending
`sp.next` calls.  Returns the items accumulated by the remaining loop
iterations together with (as instrumentation) the pages those iterations
fetched; `none` when the modelled response stream is exhausted while a
next page is still indicated, i.e. the environment does not determine the
rest of the run.  The fixed 0.5 s inter-page pause has no observable
effect on data and is not modelled. -/
def paginateLoop : Page → List (Option Page) → Option (List TrackItem × List Page)
  | p, [] => if p.next then none else some ([], [])
  | p, r :: rest =>
    if p.next then
      match r with
      | none => some ([], [])
      | some q => (paginateLoop q rest).map fun t => (q.items ++ t.1, q :: t.2)
    else some ([], [])

/-- Embedding of lines 142-149: `first` is the result of the initial
`playlist_tracks` fetch (`tracks_items = results.get("items", []) if
results else []`), then the while loop.  Returns the final `tracks_items`
together with the list of pages actually fetched. -/
def paginateTracks (first : Option Page) (rest : List (Option Page)) :
    Option (List TrackItem × List Page) :=
  match first with
  | none => some ([], [])
  | some p => (paginateLoop p rest).map fun t => (p.items ++ t.1, p :: t.2)

/-- The genre string stored for an artist: the comma-join of the fetched
genre list, or the empty string when the artist fetch returned the
no-result sentinel (line 171). -/
def genresString (env : Env) (artistId : String) : String :=
  match env.artistInfo artistId with
  | some info => String.intercalate "," info.genres
  | none => ""

/-- Statements issued by one iteration of the per-item loop (lines
151-197).  An item with a null/missing track reference is skipped, issuing
nothing.  A track whose `artists` array is empty makes the script raise
IndexError at `track["artists"][0]`; that crash is modelled as `none`. -/
def itemOps (env : Env) (pid : String) (item : TrackItem) : Option (List Op) :=
  match item.track with
  | none => some []
  | some t =>
    match t.artists with
    | [] => none
    | a :: _ =>
      some [Op.artist a.id a.name (genresString env a.id),
            Op.album t.album.id t.album.name t.album.release_date a.id,
            Op.track t.id t.name t.album.id t.popularity t.duration_ms t.explicit,
            Op.playlistTrack pid t.id]

/-- Statements issued by the whole per-item loop over `tracks_items`. -/
def itemsOps (env : Env) (pid : String) : List TrackItem → Option (List Op)
  | [] => some []
  | it :: its => do
    let o ← itemOps env pid it
    let os ← itemsOps env pid its
    pure (o ++ os)

/-- Statements issued by one iteration of the playlist loop (lines
131-197): the playlist row insert (lines 137-140) first, then the track
pagination, then the per-item loop. -/
def playlistOps (env : Env) (pl : Playlist) : Option (List Op) := do
  let tr ← paginateTracks (env.playlistTracksFirst pl.id 100) (env.nextResponses pl.id)
  let os ← itemsOps env pl.id tr.1
  pure (Op.playlist pl.id pl.name pl.owner pl.total :: os)

/-- Database state after one iteration of the playlist loop, i.e. at the
per-playlist `conn.commit()` on line 199: the committed contents. -/
def processPlaylist (env : Env) (db : DB) (pl : Playlist) : Option DB :=
  (playlistOps env pl).map (applyOps db)

/-- Database state contributed by one item of the per-item loop. -/
def processItem (env : Env) (pid : String) (db : DB) (item : TrackItem) :
    Option DB :=
  (itemOps env pid item).map (applyOps db)

/-- The playlist loop over a list of playlists. -/
def runPlaylists (env : Env) : List Playlist → DB → Option DB
  | [], db => some db
  | pl :: pls, db => (processPlaylist env db pl).bind (runPlaylists env pls)

/-- The playlists the script iterates over: `playlists_data =
fetch_with_retry(sp.current_user_playlists, limit=30)` followed by
`playlists = playlists_data["items"] if playlists_data else []`.  Only the
items of the single limit-30 response are ever used. -/
def pageItems (env : Env) : List Playlist :=
  match env.currentUserPlaylists 30 with
  | some page => page.items
  | none => []

/-- One full run of the extraction pipeline against database state `db`. -/
def spotunesRun (env : Env) (db : DB) : Option DB :=
  runPlaylists env (pageItems env) db

/-- Statement trace of the playlist loop over a list of playlists.  The
trace depends only on the API responses, never on the database (the script
never reads the tables back). -/
def listOps (env : Env) : List Playlist → Option (List Op)
  | [] => some []
  | pl :: pls => do
    let o ← playlistOps env pl
    let os ← listOps env pls
    pure (o ++ os)

/-- Statement trace of a full run. -/
def runOps (env : Env) : Option (List Op) := listOps env (pageItems env)

/-- First match for a primary key in a table. -/
def tableLookup {κ ρ : Type} [DecidableEq κ] (k : κ) : List (κ × ρ) → Option ρ
  | [] => none
  | (k', v) :: t => if k' = k then some v else tableLookup k t

/-- Uniqueness of primary keys in every table. -/
def dbNodup (db : DB) : Prop :=
  (tableKeys db.artists).Nodup ∧ (tableKeys db.albums).Nodup ∧
  (tableKeys db.tracks).Nodup ∧ (tableKeys db.playlists).Nodup ∧
  (tableKeys db.playlist_tracks).Nodup

instance (db : DB) : Decidable (dbNodup db) := by
  unfold dbNodup
  infer_instance

/-- Every row of `t` is still found, with the same values, in `t'`. -/
def tablePreserved {κ ρ : Type} [DecidableEq κ] (t t' : List (κ × ρ)) : Prop :=
  ∀ k v, tableLookup k t = some v → tableLookup k t' = some v

/-- Every row of `db` is still found, with the same values, in `db'`:
no row was updated or deleted. -/
def dbPreserved (db db' : DB) : Prop :=
  tablePreserved db.artists db'.artists ∧
  tablePreserved db.albums db'.albums ∧
  tablePreserved db.tracks db'.tracks ∧
  tablePreserved db.playlists db'.playlists ∧
  tablePreserved db.playlist_tracks db'.playlist_tracks

@[simp] lemma tableKeys_nil {κ ρ : Type} : tableKeys ([] : List (κ × ρ)) = [] := rfl

@[simp] lemma tableKeys_cons {κ ρ : Type} (k : κ) (v : ρ) (t : List (κ × ρ)) :
    tableKeys ((k, v) :: t) = k :: tableKeys t := rfl

lemma tableKeys_append {κ ρ : Type} (t u : List (κ × ρ)) :
    tableKeys (t ++ u) = tableKeys t ++ tableKeys u := by
  simp [tableKeys]

lemma mem_tableKeys_insertOrIgnore_self {κ ρ : Type} [DecidableEq κ]
    (k : κ) (v : ρ) (t : List (κ × ρ)) :
    k ∈ tableKeys (insertOrIgnore k v t) := by
  unfold insertOrIgnore
  split
  · assumption
  · rw [tableKeys_append]
    exact List.mem_append_right _ (by simp)

lemma insertOrIgnore_of_mem {κ ρ : Type} [DecidableEq κ] {k : κ}
    {t : List (κ × ρ)} (v : ρ) (h : k ∈ tableKeys t) :
    insertOrIgnore k v t = t := by
  simp [insertOrIgnore, h]

lemma mem_tableKeys_insertOrIgnore_of_mem {κ ρ : Type} [DecidableEq κ]
    {k' : κ} {t : List (κ × ρ)} (k : κ) (v : ρ) (h : k' ∈ tableKeys t) :
    k' ∈ tableKeys (insertOrIgnore k v t) := by
  unfold insertOrIgnore
  split
  · exact h
  · rw [tableKeys_append]
    exact List.mem_append_left _ h

lemma mem_tableKeys_insertOrIgnore_elim {κ ρ : Type} [DecidableEq κ]
    {k' k : κ} {v : ρ} {t : List (κ × ρ)}
    (h : k' ∈ tableKeys (insertOrIgnore k v t)) :
    k' ∈ tableKeys t ∨ k' = k := by
  unfold insertOrIgnore at h
  split at h
  · exact Or.inl h
  · rw [tableKeys_append] at h
    rcases List.mem_append.mp h with h1 | h2
    · exact Or.inl h1
    · right
      simpa using h2

lemma nodup_tableKeys_insertOrIgnore {κ ρ : Type} [DecidableEq κ]
    (k : κ) (v : ρ) {t : List (κ × ρ)} (h : (tableKeys t).Nodup) :
    (tableKeys (insertOrIgnore k v t)).Nodup := by
  unfold insertOrIgnore
  split
  · exact h
  · rename_i hk
    rw [tableKeys_append]
    refine List.Nodup.append h (List.nodup_singleton k) ?_
    intro a ha hb
    rw [tableKeys_cons, tableKeys_nil, List.mem_singleton] at hb
    exact hk (hb ▸ ha)

lemma tableLookup_append_left {κ ρ : Type} [DecidableEq κ] {k : κ} {v : ρ}
    {t : List (κ × ρ)} (u : List (κ × ρ)) (h : tableLookup k t = some v) :
    tableLookup k (t ++ u) = some v := by
  induction t with
  | nil => simp [tableLookup] at h
  | cons p t ih =>
    obtain ⟨k', v'⟩ := p
    by_cases hk : k' = k
    · simp only [tableLookup, if_pos hk] at h
      simp only [List.cons_append, tableLookup, if_pos hk]
      exact h
    · simp only [tableLookup, if_neg hk] at h
      simp only [List.cons_append, tableLookup, if_neg hk]
      exact ih h

lemma tableLookup_eq_none_of_not_mem {κ ρ : Type} [DecidableEq κ] {k : κ}
    {t : List (κ × ρ)} (h : k ∉ tableKeys t) : tableLookup k t = none := by
  induction t with
  | nil => rfl
  | cons p t ih =>
    obtain ⟨k', v'⟩ := p
    rw [tableKeys_cons, List.mem_cons] at h
    push_neg at h
    have hne : ¬ k' = k := fun he => h.1 he.symm
    simp only [tableLookup, if_neg hne]
    exact ih h.2

lemma tableLookup_append_right {κ ρ : Type} [DecidableEq κ] {k : κ}
    {t : List (κ × ρ)} (u : List (κ × ρ)) (h : tableLookup k t = none) :
    tableLookup k (t ++ u) = tableLookup k u := by
  induction t with
  | nil => rfl
  | cons p t ih =>
    obtain ⟨k', v'⟩ := p
    by_cases hk : k' = k
    · simp only [tableLookup, if_pos hk] at h
      exact Option.noConfusion h
    · simp only [tableLookup, if_neg hk] at h
      simp only [List.cons_append, tableLookup, if_neg hk]
      exact ih h

lemma tableLookup_insertOrIgnore_self {κ ρ : Type} [DecidableEq κ] {k : κ}
    {t : List (κ × ρ)} (v : ρ) (h : k ∉ tableKeys t) :
    tableLookup k (insertOrIgnore k v t) = some v := by
  rw [insertOrIgnore, if_neg h,
    tableLookup_append_right _ (tableLookup_eq_none_of_not_mem h)]
  simp [tableLookup]

lemma tableLookup_insertOrIgnore_mono {κ ρ : Type} [DecidableEq κ] {k : κ}
    {v : ρ} {t : List (κ × ρ)} (k' : κ) (v' : ρ)
    (h : tableLookup k t = some v) :
    tableLookup k (insertOrIgnore k' v' t) = some v := by
  unfold insertOrIgnore
  split
  · exact h
  · exact tableLookup_append_left _ h

/-- The statement's primary key is already present in its target table. -/
def opKeyPresent (db : DB) : Op → Prop
  | .artist i _ _ => i ∈ tableKeys db.artists
  | .album i _ _ _ => i ∈ tableKeys db.albums
  | .track i _ _ _ _ _ => i ∈ tableKeys db.tracks
  | .playlist i _ _ _ => i ∈ tableKeys db.playlists
  | .playlistTrack p t => (p, t) ∈ tableKeys db.playlist_tracks

lemma opKeyPresent_applyOp_self (db : DB) (op : Op) :
    opKeyPresent (applyOp db op) op := by
  cases op <;> exact mem_tableKeys_insertOrIgnore_self _ _ _

lemma applyOp_of_present {db : DB} {op : Op} (h : opKeyPresent db op) :
    applyOp db op = db := by
  cases op <;>
    simp only [applyOp] <;>
    rw [insertOrIgnore_of_mem _ h]

lemma opKeyPresent_applyOp_mono {db : DB} {op : Op} (op' : Op)
    (h : opKeyPresent db op) : opKeyPresent (applyOp db op') op := by
  cases op <;> cases op' <;>
    first
      | exact h
      | exact mem_tableKeys_insertOrIgnore_of_mem _ _ h

lemma opKeyPresent_applyOps_mono {op : Op} :
    ∀ (ops : List Op) (db : DB),
      opKeyPresent db op → opKeyPresent (applyOps db ops) op := by
  intro ops
  induction ops with
  | nil => intro db h; exact h
  | cons o os ih =>
    intro db h
    exact ih (applyOp db o) (opKeyPresent_applyOp_mono o h)

lemma applyOps_append (db : DB) (l₁ l₂ : List Op) :
    applyOps db (l₁ ++ l₂) = applyOps (applyOps db l₁) l₂ := by
  simp [applyOps, List.foldl_append]

/-- Replaying an entire statement sequence against its own result changes
nothing: every statement's key is already present, so every INSERT OR
IGNORE is a no-op. -/
lemma applyOps_replay : ∀ (ops : List Op) (db : DB),
    applyOps (applyOps db ops) ops = applyOps db ops := by
  intro ops
  induction ops with
  | nil => intro db; rfl
  | cons o os ih =>
    intro db
    have h1 : opKeyPresent (applyOps (applyOp db o) os) o :=
      opKeyPresent_applyOps_mono os _ (opKeyPresent_applyOp_self db o)
    calc applyOps (applyOps db (o :: os)) (o :: os)
        = applyOps (applyOp (applyOps (applyOp db o) os) o) os := rfl
      _ = applyOps (applyOps (applyOp db o) os) os := by
            rw [applyOp_of_present h1]
      _ = applyOps (applyOp db o) os := ih (applyOp db o)

lemma dbNodup_emptyDB : dbNodup emptyDB := by
  simp [dbNodup, emptyDB]

lemma dbNodup_applyOp {db : DB} (op : Op) (h : dbNodup db) :
    dbNodup (applyOp db op) := by
  obtain ⟨h1, h2, h3, h4, h5⟩ := h
  cases op with
  | artist i n g => exact ⟨nodup_tableKeys_insertOrIgnore _ _ h1, h2, h3, h4, h5⟩
  | album i n r a => exact ⟨h1, nodup_tableKeys_insertOrIgnore _ _ h2, h3, h4, h5⟩
  | track i n al p d e =>
      exact ⟨h1, h2, nodup_tableKeys_insertOrIgnore _ _ h3, h4, h5⟩
  | playlist i n o t =>
      exact ⟨h1, h2, h3, nodup_tableKeys_insertOrIgnore _ _ h4, h5⟩
  | playlistTrack p t =>
      exact ⟨h1, h2, h3, h4, nodup_tableKeys_insertOrIgnore _ _ h5⟩

lemma dbNodup_applyOps : ∀ (ops : List Op) (db : DB),
    dbNodup db → dbNodup (applyOps db ops) := by
  intro ops
  induction ops with
  | nil => intro db h; exact h
  | cons o os ih => intro db h; exact ih (applyOp db o) (dbNodup_applyOp o h)

lemma tablePreserved_refl {κ ρ : Type} [DecidableEq κ] (t : List (κ × ρ)) :
    tablePreserved t t := fun _ _ h => h

lemma tablePreserved_insertOrIgnore {κ ρ : Type} [DecidableEq κ]
    (k : κ) (v : ρ) (t : List (κ × ρ)) :
    tablePreserved t (insertOrIgnore k v t) :=
  fun _ _ h => tableLookup_insertOrIgnore_mono k v h

lemma dbPreserved_applyOp (db : DB) (op : Op) : dbPreserved db (applyOp db op) := by
  cases op <;>
    exact ⟨by first
            | exact tablePreserved_refl _
            | exact tablePreserved_insertOrIgnore _ _ _,
           by first
            | exact tablePreserved_refl _
            | exact tablePreserved_insertOrIgnore _ _ _,
           by first
            | exact tablePreserved_refl _
            | exact tablePreserved_insertOrIgnore _ _ _,
           by first
            | exact tablePreserved_refl _
            | exact tablePreserved_insertOrIgnore _ _ _,
           by first
            | exact tablePreserved_refl _
            | exact tablePreserved_insertOrIgnore _ _ _⟩

lemma dbPreserved_trans {db₁ db₂ db₃ : DB} (h1 : dbPreserved db₁ db₂)
    (h2 : dbPreserved db₂ db₃) : dbPreserved db₁ db₃ :=
  ⟨fun k v h => h2.1 k v (h1.1 k v h),
   fun k v h => h2.2.1 k v (h1.2.1 k v h),
   fun k v h => h2.2.2.1 k v (h1.2.2.1 k v h),
   fun k v h => h2.2.2.2.1 k v (h1.2.2.2.1 k v h),
   fun k v h => h2.2.2.2.2 k v (h1.2.2.2.2 k v h)⟩

lemma dbPreserved_applyOps : ∀ (ops : List Op) (db : DB),
    dbPreserved db (applyOps db ops) := by
  intro ops
  induction ops with
  | nil =>
    intro db
    exact ⟨tablePreserved_refl _, tablePreserved_refl _, tablePreserved_refl _,
      tablePreserved_refl _, tablePreserved_refl _⟩
  | cons o os ih =>
    intro db
    exact dbPreserved_trans (dbPreserved_applyOp db o) (ih (applyOp db o))

/-- A run is its statement trace applied to the initial database: the trace
itself never depends on the database contents. -/
lemma runPlaylists_eq_listOps (env : Env) : ∀ (pls : List Playlist) (db : DB),
    runPlaylists env pls db = (listOps env pls).map (applyOps db) := by
  intro pls
  induction pls with
  | nil => intro db; rfl
  | cons pl pls ih =>
    intro db
    cases hpl : playlistOps env pl with
    | none => simp [runPlaylists, processPlaylist, listOps, hpl]
    | some o =>
      cases hls : listOps env pls with
      | none =>
        simp [runPlaylists, processPlaylist, listOps, hpl, hls, ih]
      | some os =>
        simp [runPlaylists, processPlaylist, listOps, hpl, hls, ih,
          applyOps_append]

lemma genresString_congr {env₁ env₂ : Env}
    (h : env₁.artistInfo = env₂.artistInfo) :
    genresString env₁ = genresString env₂ := by
  funext aid
  simp [genresString, h]

lemma itemOps_congr {env₁ env₂ : Env} (h : env₁.artistInfo = env₂.artistInfo)
    (pid : String) (item : TrackItem) :
    itemOps env₁ pid item = itemOps env₂ pid item := by
  obtain ⟨tr⟩ := item
  cases tr with
  | none => rfl
  | some t =>
    cases ht : t.artists with
    | nil => simp [itemOps, ht]
    | cons a rest => simp [itemOps, ht, genresString_congr h]

lemma itemsOps_congr {env₁ env₂ : Env} (h : env₁.artistInfo = env₂.artistInfo)
    (pid : String) : ∀ its : List TrackItem,
    itemsOps env₁ pid its = itemsOps env₂ pid its := by
  intro its
  induction its with
  | nil => rfl
  | cons it its ih => simp [itemsOps, itemOps_congr h, ih]

lemma playlistOps_congr {env₁ env₂ : Env}
    (h1 : env₁.playlistTracksFirst = env₂.playlistTracksFirst)
    (h2 : env₁.nextResponses = env₂.nextResponses)
    (h3 : env₁.artistInfo = env₂.artistInfo) (pl : Playlist) :
    playlistOps env₁ pl = playlistOps env₂ pl := by
  unfold playlistOps
  rw [h1, h2]
  cases paginateTracks (env₂.playlistTracksFirst pl.id 100)
      (env₂.nextResponses pl.id) with
  | none => rfl
  | some tr => simp [itemsOps_congr h3]

lemma runPlaylists_congr {env₁ env₂ : Env}
    (h1 : env₁.playlistTracksFirst = env₂.playlistTracksFirst)
    (h2 : env₁.nextResponses = env₂.nextResponses)
    (h3 : env₁.artistInfo = env₂.artistInfo) :
    ∀ (pls : List Playlist) (db : DB),
      runPlaylists env₁ pls db = runPlaylists env₂ pls db := by
  intro pls
  induction pls with
  | nil => intro db; rfl
  | cons pl pls ih =>
    intro db
    simp only [runPlaylists, processPlaylist, playlistOps_congr h1 h2 h3]
    cases playlistOps env₂ pl with
    | none => rfl
    | some o => simp [ih]

/-- The playlist id inserted by a statement, when it targets `playlists`. -/
def opPlaylistId : Op → Option String
  | .playlist i _ _ _ => some i
  | _ => none

lemma tableKeys_playlists_applyOp (db : DB) (o : Op) (pid : String)
    (h : pid ∈ tableKeys (applyOp db o).playlists) :
    pid ∈ tableKeys db.playlists ∨ opPlaylistId o = some pid := by
  cases o with
  | playlist i n ow t =>
    rcases mem_tableKeys_insertOrIgnore_elim h with h1 | h1
    · exact Or.inl h1
    · right
      simp [opPlaylistId, h1]
  | artist i n g => exact Or.inl h
  | album i n r a => exact Or.inl h
  | track i n al p d e => exact Or.inl h
  | playlistTrack p t => exact Or.inl h

lemma mem_tableKeys_playlists_applyOps :
    ∀ (ops : List Op) (db : DB) (pid : String),
      pid ∈ tableKeys (applyOps db ops).playlists →
      pid ∈ tableKeys db.playlists ∨ pid ∈ ops.filterMap opPlaylistId := by
  intro ops
  induction ops with
  | nil => intro db pid h; exact Or.inl h
  | cons o os ih =>
    intro db pid h
    rcases ih (applyOp db o) pid h with h1 | h2
    · rcases tableKeys_playlists_applyOp db o pid h1 with h3 | h3
      · exact Or.inl h3
      · exact Or.inr (List.mem_filterMap.mpr ⟨o, List.mem_cons_self o os, h3⟩)
    · rcases List.mem_filterMap.mp h2 with ⟨a, ha, hfa⟩
      exact Or.inr (List.mem_filterMap.mpr ⟨a, List.mem_cons_of_mem o ha, hfa⟩)

lemma itemOps_playlistIds {env : Env} {pid : String} {item : TrackItem}
    {o : List Op} (h : itemOps env pid item = some o) :
    o.filterMap opPlaylistId = [] := by
  obtain ⟨tr⟩ := item
  cases tr with
  | none =>
    obtain rfl : ([] : List Op) = o := Option.some.inj h
    rfl
  | some t =>
    cases ht : t.artists with
    | nil => simp [itemOps, ht] at h
    | cons a rest =>
      simp only [itemOps, ht] at h
      obtain rfl := Option.some.inj h
      rfl

lemma itemsOps_playlistIds {env : Env} {pid : String} :
    ∀ {its : List TrackItem} {o : List Op},
      itemsOps env pid its = some o → o.filterMap opPlaylistId = [] := by
  intro its
  induction its with
  | nil =>
    intro o h
    obtain rfl : ([] : List Op) = o := Option.some.inj h
    rfl
  | cons it its ih =>
    intro o h
    cases hit : itemOps env pid it with
    | none => simp [itemsOps, hit] at h
    | some o1 =>
      cases hits : itemsOps env pid its with
      | none => simp [itemsOps, hit, hits] at h
      | some o2 =>
        have : o = o1 ++ o2 := by
          simp [itemsOps, hit, hits] at h
          exact h.symm
        subst this
        rw [List.filterMap_append, itemOps_playlistIds hit, ih hits]
        rfl

lemma playlistOps_playlistIds {env : Env} {pl : Playlist} {o : List Op}
    (h : playlistOps env pl = some o) :
    o.filterMap opPlaylistId = [pl.id] := by
  unfold playlistOps at h
  cases hp : paginateTracks (env.playlistTracksFirst pl.id 100)
      (env.nextResponses pl.id) with
  | none => rw [hp] at h; simp at h
  | some tr =>
    rw [hp] at h
    cases hi : itemsOps env pl.id tr.1 with
    | none => simp [hi] at h
    | some os =>
      simp [hi] at h
      subst h
      rw [List.filterMap_cons]
      simp [opPlaylistId, itemsOps_playlistIds hi]

lemma listOps_playlistIds {env : Env} : ∀ {pls : List Playlist} {ops : List Op},
    listOps env pls = some ops →
    ops.filterMap opPlaylistId = pls.map Playlist.id := by
  intro pls
  induction pls with
  | nil =>
    intro ops h
    obtain rfl : ([] : List Op) = ops := Option.some.inj h
    rfl
  | cons pl pls ih =>
    intro ops h
    cases hpl : playlistOps env pl with
    | none => simp [listOps, hpl] at h
    | some o =>
      cases hls : listOps env pls with
      | none => simp [listOps, hpl, hls] at h
      | some os =>
        have : ops = o ++ os := by
          simp [listOps, hpl, hls] at h
          exact h.symm
        subst this
        rw [List.filterMap_append, playlistOps_playlistIds hpl, ih hls,
          List.map_cons]
        rfl

lemma spotunesRun_eq_runOps (env : Env) (db : DB) :
    spotunesRun env db = (runOps env).map (applyOps db) :=
  runPlaylists_eq_listOps env (pageItems env) db

lemma paginateLoop_items : ∀ (rest : List (Option Page)) (p : Page)
    (acc : List TrackItem) (pages : List Page),
    paginateLoop p rest = some (acc, pages) →
    acc = (pages.map Page.items).flatten := by
  intro rest
  induction rest with
  | nil =>
    intro p acc pages h
    simp only [paginateLoop] at h
    split at h
    · exact absurd h (by simp)
    · obtain ⟨rfl, rfl⟩ := Prod.mk.inj (Option.some.inj h)
      simp
  | cons r rest ih =>
    intro p acc pages h
    cases r with
    | none =>
      simp only [paginateLoop] at h
      split at h
      · obtain ⟨rfl, rfl⟩ := Prod.mk.inj (Option.some.inj h)
        simp
      · obtain ⟨rfl, rfl⟩ := Prod.mk.inj (Option.some.inj h)
        simp
    | some q =>
      simp only [paginateLoop] at h
      split at h
      · cases hq : paginateLoop q rest with
        | none => rw [hq] at h; exact absurd h (by simp)
        | some t =>
          obtain ⟨its, pgs⟩ := t
          rw [hq] at h
          simp only [Option.map_some'] at h
          obtain ⟨rfl, rfl⟩ := Prod.mk.inj (Option.some.inj h)
          simp [ih q its pgs hq]
      · obtain ⟨rfl, rfl⟩ := Prod.mk.inj (Option.some.inj h)
        simp

lemma paginateTracks_items {first : Option Page} {rest : List (Option Page)}
    {acc : List TrackItem} {pages : List Page}
    (h : paginateTracks first rest = some (acc, pages)) :
    acc = (pages.map Page.items).flatten := by
  cases first with
  | none =>
    obtain ⟨rfl, rfl⟩ := Prod.mk.inj (Option.some.inj h)
    simp
  | some p =>
    simp only [paginateTracks] at h
    cases hq : paginateLoop p rest with
    | none => rw [hq] at h; exact absurd h (by simp)
    | some t =>
      obtain ⟨its, pgs⟩ := t
      rw [hq] at h
      simp only [Option.map_some'] at h
      obtain ⟨rfl, rfl⟩ := Prod.mk.inj (Option.some.inj h)
      simp [paginateLoop_items rest p its pgs hq]

/-- A concrete track used in witnesses: one artist whose details fetch
succeeds. -/
def exTrack : Track :=
  ⟨"t1", "Song", ⟨"al1", "Album", "2020-01-01"⟩, 50, 200000, false,
    [⟨"ar1", "Artist"⟩]⟩

/-- A concrete track used in witnesses: its artist lookup yields the
no-result sentinel in `exEnv`. -/
def exTrack2 : Track :=
  ⟨"t2", "Song2", ⟨"al2", "Album2", "1999"⟩, 10, 100, true,
    [⟨"zz", "Mystery"⟩]⟩

/-- A concrete environment: one playlist of two items (one normal track,
one null-track item); for any other playlist id the first track-page fetch
yields the no-result sentinel. -/
def exEnv : Env where
  currentUserPlaylists := fun n =>
    if n = 30 then some ⟨[⟨"p1", "Mix", "Owner", 2⟩], 5, true⟩ else none
  playlistTracksFirst := fun pid _ =>
    if pid = "p1" then some ⟨[⟨some exTrack⟩, ⟨none⟩], false⟩ else none
  nextResponses := fun _ => []
  artistInfo := fun aid =>
    if aid = "ar1" then some ⟨["pop", "rock"]⟩ else none

/-- The database produced by running the pipeline in `exEnv` from the
empty schema. -/
def exDB : DB :=
  ⟨[("ar1", ⟨"Artist", "pop,rock"⟩)],
   [("al1", ⟨"Album", "2020-01-01", "ar1"⟩)],
   [("t1", ⟨"Song", "al1", 50, 200000, false⟩)],
   [("p1", ⟨"Mix", "Owner", 2⟩)],
   [(("p1", "t1"), ())]⟩

/-- An environment agreeing with `exEnv` on the limit-30 playlist-listing
items and on all track/artist oracles, but with a different reported total,
a different next-page flag, and extra playlists at other limits. -/
def exEnv2 : Env where
  currentUserPlaylists := fun n =>
    if n = 30 then some ⟨[⟨"p1", "Mix", "Owner", 2⟩], 99, false⟩
    else some ⟨[⟨"pX", "Hidden", "Nobody", 7⟩], 99, true⟩
  playlistTracksFirst := exEnv.playlistTracksFirst
  nextResponses := exEnv.nextResponses
  artistInfo := exEnv.artistInfo

/-- Claim C1: a run is a sequence of INSERT OR IGNORE statements determined
by the API responses alone, so repeating the run over the same playlists
and tracks leaves the tables identical: every re-applied insert finds its
primary key present and is a no-op.  Moreover keys stay unique (no
duplicates) and any run preserves every pre-existing row unchanged
(first-seen values win, no updates). -/
theorem run_idempotent_insert_or_ignore (env : Env) (db : DB)
    (h : spotunesRun env emptyDB = some db) :
    spotunesRun env db = some db ∧ dbNodup db ∧
    (∀ db₀ db₁ : DB, spotunesRun env db₀ = some db₁ → dbPreserved db₀ db₁) := by
  rw [spotunesRun_eq_runOps] at h
  cases hops : runOps env with
  | none => rw [hops] at h; exact absurd h (by simp)
  | some ops =>
    rw [hops] at h
    simp only [Option.map_some'] at h
    obtain rfl := Option.some.inj h
    refine ⟨?_, ?_, ?_⟩
    · rw [spotunesRun_eq_runOps, hops]
      simp [applyOps_replay]
    · exact dbNodup_applyOps ops emptyDB dbNodup_emptyDB
    · intro db₀ db₁ hrun
      rw [spotunesRun_eq_runOps, hops] at hrun
      simp only [Option.map_some'] at hrun
      obtain rfl := Option.some.inj hrun
      exact dbPreserved_applyOps ops db₀

/-- Witness for C1 in the concrete environment `exEnv`. -/
theorem run_idempotent_insert_or_ignore_witness :
    spotunesRun exEnv emptyDB = some exDB ∧
    (spotunesRun exEnv exDB = some exDB ∧ dbNodup exDB ∧
      (∀ db₀ db₁ : DB, spotunesRun exEnv db₀ = some db₁ →
        dbPreserved db₀ db₁)) :=
  ⟨by decide, run_idempotent_insert_or_ignore exEnv exDB (by decide)⟩

/-- Claim C4: an item whose track reference is null or missing is skipped
before any field extraction, issuing no statement: the whole database —
all five tables — is returned unchanged. -/
theorem null_track_writes_no_rows (env : Env) (pid : String) (db : DB)
    (item : TrackItem) (h : item.track = none) :
    processItem env pid db item = some db := by
  simp [processItem, itemOps, h, applyOps]

/-- Witness for C4: a null-track item against the empty database. -/
theorem null_track_writes_no_rows_witness :
    processItem exEnv "p1" emptyDB ⟨none⟩ = some emptyDB :=
  null_track_writes_no_rows exEnv "p1" emptyDB ⟨none⟩ rfl

/-- Claim C5: whenever the pagination loop completes (it stops when no next
page is indicated or a fetch returns the no-result sentinel), the
accumulated `tracks_items` sequence is exactly the concatenation of the
items of the fetched pages, so its length is the sum of the per-page item
counts: no item is dropped and none is duplicated.  Stated for a listing
spanning more than one page, as the claim has it. -/
theorem pagination_preserves_all_items (first : Option Page)
    (rest : List (Option Page)) (acc : List TrackItem) (pages : List Page)
    (h : paginateTracks first rest = some (acc, pages))
    (_hmulti : 1 < pages.length) :
    acc = (pages.map Page.items).flatten ∧
    acc.length = (pages.map fun p => p.items.length).sum := by
  have hacc := paginateTracks_items h
  subst hacc
  refine ⟨rfl, ?_⟩
  rw [List.length_flatten, List.map_map]
  rfl

/-- Witness for C5: a first page of one item with a next page of two items;
the accumulated sequence has all three items. -/
theorem pagination_preserves_all_items_witness :
    [(⟨none⟩ : TrackItem), ⟨none⟩, ⟨none⟩] =
      (([⟨[⟨none⟩], true⟩, ⟨[⟨none⟩, ⟨none⟩], false⟩] : List Page).map
        Page.items).flatten ∧
    [(⟨none⟩ : TrackItem), ⟨none⟩, ⟨none⟩].length =
      (([⟨[⟨none⟩], true⟩, ⟨[⟨none⟩, ⟨none⟩], false⟩] : List Page).map
        fun p => p.items.length).sum :=
  pagination_preserves_all_items (some ⟨[⟨none⟩], true⟩)
    [some ⟨[⟨none⟩, ⟨none⟩], false⟩] [⟨none⟩, ⟨none⟩, ⟨none⟩]
    [⟨[⟨none⟩], true⟩, ⟨[⟨none⟩, ⟨none⟩], false⟩] (by decide) (by decide)

/-- Claim C6: an item whose artist-details fetch yields the no-result
sentinel is still processed, and the artist row it inserts carries the
empty genre string; when the fetch succeeds the row carries the
comma-joined genre list. -/
theorem artist_fetch_failure_empty_genres (env : Env) (pid : String)
    (db : DB) (item : TrackItem) (t : Track) (a : ArtistRef)
    (rest : List ArtistRef) (ht : item.track = some t)
    (ha : t.artists = a :: rest) (hfresh : a.id ∉ tableKeys db.artists) :
    ∃ db', processItem env pid db item = some db' ∧
      (env.artistInfo a.id = none →
        tableLookup a.id db'.artists = some ⟨a.name, ""⟩) ∧
      (∀ info : ArtistInfo, env.artistInfo a.id = some info →
        tableLookup a.id db'.artists =
          some ⟨a.name, String.intercalate "," info.genres⟩) := by
  refine ⟨applyOps db
      [Op.artist a.id a.name (genresString env a.id),
       Op.album t.album.id t.album.name t.album.release_date a.id,
       Op.track t.id t.name t.album.id t.popularity t.duration_ms t.explicit,
       Op.playlistTrack pid t.id], ?_, ?_, ?_⟩
  · simp [processItem, itemOps, ht, ha]
  · intro hnone
    have hart : (applyOps db
        [Op.artist a.id a.name (genresString env a.id),
         Op.album t.album.id t.album.name t.album.release_date a.id,
         Op.track t.id t.name t.album.id t.popularity t.duration_ms t.explicit,
         Op.playlistTrack pid t.id]).artists =
        insertOrIgnore a.id ⟨a.name, genresString env a.id⟩ db.artists := rfl
    rw [hart, tableLookup_insertOrIgnore_self _ hfresh]
    simp [genresString, hnone]
  · intro info hinfo
    have hart : (applyOps db
        [Op.artist a.id a.name (genresString env a.id),
         Op.album t.album.id t.album.name t.album.release_date a.id,
         Op.track t.id t.name t.album.id t.popularity t.duration_ms t.explicit,
         Op.playlistTrack pid t.id]).artists =
        insertOrIgnore a.id ⟨a.name, genresString env a.id⟩ db.artists := rfl
    rw [hart, tableLookup_insertOrIgnore_self _ hfresh]
    simp [genresString, hinfo]

/-- Witness for C6: in `exEnv` the artist lookup for id zz yields the
sentinel; the item is still processed and the stored genre string is
empty. -/
theorem artist_fetch_failure_empty_genres_witness :
    ∃ db', processItem exEnv "p1" emptyDB ⟨some exTrack2⟩ = some db' ∧
      (exEnv.artistInfo "zz" = none →
        tableLookup "zz" db'.artists = some ⟨"Mystery", ""⟩) ∧
      (∀ info : ArtistInfo, exEnv.artistInfo "zz" = some info →
        tableLookup "zz" db'.artists =
          some ⟨"Mystery", String.intercalate "," info.genres⟩) :=
  artist_fetch_failure_empty_genres exEnv "p1" emptyDB ⟨some exTrack2⟩
    exTrack2 ⟨"zz", "Mystery"⟩ [] rfl rfl (by decide)

/-- Claim C7: a non-skipped item issues exactly four statements in the
fixed order artist, album (referencing that artist), track (referencing
that album), playlist_tracks membership; hence after the first two
statements — i.e. at the moment the track insert executes — the album row
with the track's album_id is already present. -/
theorem per_item_insert_order (env : Env) (pid : String) (db : DB)
    (item : TrackItem) (t : Track) (a : ArtistRef) (rest : List ArtistRef)
    (ht : item.track = some t) (ha : t.artists = a :: rest) :
    itemOps env pid item =
      some [Op.artist a.id a.name (genresString env a.id),
            Op.album t.album.id t.album.name t.album.release_date a.id,
            Op.track t.id t.name t.album.id t.popularity t.duration_ms
              t.explicit,
            Op.playlistTrack pid t.id] ∧
    t.album.id ∈ tableKeys (applyOps db
      [Op.artist a.id a.name (genresString env a.id),
       Op.album t.album.id t.album.name t.album.release_date a.id]).albums := by
  constructor
  · simp [itemOps, ht, ha]
  · exact mem_tableKeys_insertOrIgnore_self _ _ _

/-- Witness for C7 at the concrete track of `exEnv`. -/
theorem per_item_insert_order_witness :
    itemOps exEnv "p1" ⟨some exTrack⟩ =
      some [Op.artist "ar1" "Artist" (genresString exEnv "ar1"),
            Op.album "al1" "Album" "2020-01-01" "ar1",
            Op.track "t1" "Song" "al1" 50 200000 false,
            Op.playlistTrack "p1" "t1"] ∧
    "al1" ∈ tableKeys (applyOps emptyDB
      [Op.artist "ar1" "Artist" (genresString exEnv "ar1"),
       Op.album "al1" "Album" "2020-01-01" "ar1"]).albums :=
  per_item_insert_order exEnv "p1" emptyDB ⟨some exTrack⟩ exTrack
    ⟨"ar1", "Artist"⟩ [] rfl rfl

/-- Claim C8: the playlist listing is the single limit-30 fetch with no
continuation.  First, a run depends only on the items of that one response
(with all track/artist oracles fixed): changing the listing's total, its
next-page flag, or responses at any other limit changes nothing.  Second,
every playlist id present after a run was either already present or comes
from those first-page items, so playlists beyond the first page are never
inserted. -/
theorem only_first_playlist_page_processed :
    (∀ env₁ env₂ : Env,
      env₁.playlistTracksFirst = env₂.playlistTracksFirst →
      env₁.nextResponses = env₂.nextResponses →
      env₁.artistInfo = env₂.artistInfo →
      pageItems env₁ = pageItems env₂ →
      ∀ db : DB, spotunesRun env₁ db = spotunesRun env₂ db) ∧
    (∀ (env : Env) (db db' : DB), spotunesRun env db = some db' →
      ∀ pid, pid ∈ tableKeys db'.playlists →
        pid ∈ tableKeys db.playlists ∨
        pid ∈ (pageItems env).map Playlist.id) := by
  constructor
  · intro env₁ env₂ h1 h2 h3 h4 db
    unfold spotunesRun
    rw [h4]
    exact runPlaylists_congr h1 h2 h3 _ db
  · intro env db db' hrun pid hmem
    rw [spotunesRun_eq_runOps] at hrun
    cases hops : runOps env with
    | none => rw [hops] at hrun; exact absurd hrun (by simp)
    | some ops =>
      rw [hops] at hrun
      simp only [Option.map_some'] at hrun
      obtain rfl := Option.some.inj hrun
      rcases mem_tableKeys_playlists_applyOps ops db pid hmem with h | h
      · exact Or.inl h
      · right
        have hops' : listOps env (pageItems env) = some ops := hops
        rwa [listOps_playlistIds hops'] at h

/-- Witness for C8: `exEnv2` differs from `exEnv` in the listing's total,
next flag and other-limit responses, yet the runs agree; and in `exDB`
(the run's result) the only playlist key comes from the first-page
items. -/
theorem only_first_playlist_page_processed_witness :
    spotunesRun exEnv emptyDB = spotunesRun exEnv2 emptyDB ∧
    (∀ pid, pid ∈ tableKeys exDB.playlists →
      pid ∈ tableKeys emptyDB.playlists ∨
      pid ∈ (pageItems exEnv).map Playlist.id) :=
  ⟨only_first_playlist_page_processed.1 exEnv exEnv2 rfl rfl rfl (by decide)
      emptyDB,
   only_first_playlist_page_processed.2 exEnv emptyDB exDB (by decide)⟩

/-- Claim C10: when the first track-page fetch for a playlist yields the
no-result sentinel, that iteration issues exactly the playlist-row insert:
at its end-of-iteration commit the playlist row is present while the
artists, albums, tracks and playlist_tracks tables are exactly as before
that playlist's iteration. -/
theorem failed_first_fetch_playlist_still_committed (env : Env)
    (pl : Playlist) (h : env.playlistTracksFirst pl.id 100 = none) :
    playlistOps env pl = some [Op.playlist pl.id pl.name pl.owner pl.total] ∧
    ∀ db : DB, ∃ db', processPlaylist env db pl = some db' ∧
      pl.id ∈ tableKeys db'.playlists ∧
      db'.playlists =
        insertOrIgnore pl.id ⟨pl.name, pl.owner, pl.total⟩ db.playlists ∧
      db'.artists = db.artists ∧ db'.albums = db.albums ∧
      db'.tracks = db.tracks ∧ db'.playlist_tracks = db.playlist_tracks := by
  have hops : playlistOps env pl =
      some [Op.playlist pl.id pl.name pl.owner pl.total] := by
    simp [playlistOps, h, paginateTracks, itemsOps]
  refine ⟨hops, ?_⟩
  intro db
  refine ⟨applyOp db (Op.playlist pl.id pl.name pl.owner pl.total),
    ?_, ?_, rfl, rfl, rfl, rfl, rfl⟩
  · simp [processPlaylist, hops, applyOps]
  · exact mem_tableKeys_insertOrIgnore_self _ _ _

/-- Witness for C10: in `exEnv` the first fetch for playlist p2 yields the
sentinel; its iteration still commits the p2 playlist row and leaves the
other tables of `exDB` untouched. -/
theorem failed_first_fetch_playlist_still_committed_witness :
    playlistOps exEnv ⟨"p2", "Empty", "Owner", 0⟩ =
      some [Op.playlist "p2" "Empty" "Owner" 0] ∧
    ∀ db : DB, ∃ db',
      processPlaylist exEnv db ⟨"p2", "Empty", "Owner", 0⟩ = some db' ∧
      "p2" ∈ tableKeys db'.playlists ∧
      db'.playlists = insertOrIgnore "p2" ⟨"Empty", "Owner", 0⟩ db.playlists ∧
      db'.artists = db.artists ∧ db'.albums = db.albums ∧
      db'.tracks = db.tracks ∧ db'.playlist_tracks = db.playlist_tracks :=
  failed_first_fetch_playlist_still_committed exEnv ⟨"p2", "Empty", "Owner", 0⟩
    (by decide)

end Spotunes
